import Mathlib

/-!
Shallow embedding of the bittrex REST client (bittrex.go).

The client's behaviour splits into two pure parts, both modelled here:

* request construction: each API method builds a resource path string by
  literal concatenation (fmt.Sprintf / "+"), clamping numeric parameters and
  (for some methods) uppercasing identifiers, then calls
  client.do(method, ressource, payload, authenticate);
* response handling: the raw bytes are unmarshalled into the two-layer
  envelope jsonResponse {Success, Message, Result}, handleErr turns
  Success == false into an error carrying Message, and on success Result is
  unmarshalled into the typed payload.

The HTTP transport and byte-level JSON text parsing are external; we model
responses from the already-parsed envelope. Go errors are modelled as
Option String (some msg = non-nil error). Numeric JSON payload fields are
modelled as Int (no arithmetic is ever performed on them).
-/

namespace Bittrex

/-- Parsed JSON values, the domain of the envelope's Result field
(json.RawMessage after parsing). Numbers are modelled as integers since the
claims never involve numeric arithmetic. -/
inductive Json where
  | null
  | bool (b : Bool)
  | num (n : Int)
  | str (s : String)
  | arr (elems : List Json)
  | obj (fields : List (String × Json))
deriving Repr

/-- Modelled from the spec: the two-layer response envelope
`{success: boolean, message: string, result: opaque-JSON}` (spec section 3);
the Go type jsonResponse is declared outside the provided source file. -/
structure jsonResponse where
  Success : Bool
  Message : String
  Result : Json
deriving Repr

/-- Source handleErr (bittrex.go lines 29-34): returns an error carrying the
envelope's Message when Success is false, nil otherwise. -/
def handleErr (r : jsonResponse) : Option String :=
  if !r.Success then some r.Message else none

/-- Go strings.ToUpper as used by the client: uppercase every character
(Char.toUpper handles the basic-latin range, which is all the client's
identifiers use). -/
def toUpperS (s : String) : String :=
  String.mk (s.data.map Char.toUpper)

/-- Request descriptor: the argument tuple the client passes to
client.do(method, ressource, payload, authenticate). -/
structure Request where
  method : String
  ressource : String
  payload : String
  authenticate : Bool
deriving Repr, DecidableEq

/-! Request construction, one definition per API method, translated from the
string-building code of bittrex.go. Go float64 arguments are only ever used
through strconv.FormatFloat(x, 'f', 8, 64); floating point being outside the
embedding, such arguments are taken as the already-formatted decimal
strings. -/

/-- GetTicker request path (line 55). -/
def GetTickerPath (market : String) : String :=
  "public/getticker?market=" ++ toUpperS market

/-- GetOrderBook category normalisation (lines 92-94): anything other than
buy, sell or both is replaced by both. -/
def GetOrderBookCat (cat : String) : String :=
  if cat ≠ "buy" && cat ≠ "sell" && cat ≠ "both" then "both" else cat

/-- GetOrderBook depth clamping (lines 95-100). -/
def GetOrderBookDepth (depth : Int) : Int :=
  let depth := if depth > 100 then 100 else depth
  if depth < 1 then 1 else depth

/-- GetOrderBook request path (line 101). -/
def GetOrderBookPath (market cat : String) (depth : Int) : String :=
  "public/getorderbook?market=" ++ toUpperS market ++ "&type=" ++
    GetOrderBookCat cat ++ "&depth=" ++ toString (GetOrderBookDepth depth)

/-- GetOrderBook request (line 101): unauthenticated GET. -/
def GetOrderBookRequest (market cat : String) (depth : Int) : Request :=
  { method := "GET", ressource := GetOrderBookPath market cat depth,
    payload := "", authenticate := false }

/-- GetMarketHistory count clamping (lines 120-125). -/
def GetMarketHistoryCount (count : Int) : Int :=
  let count := if count > 100 then 100 else count
  if count < 1 then 1 else count

/-- GetMarketHistory request path (line 126). -/
def GetMarketHistoryPath (market : String) (count : Int) : String :=
  "public/getmarkethistory?market=" ++ toUpperS market ++ "&count=" ++
    toString (GetMarketHistoryCount count)

/-- BuyLimit request path (line 145): the market is embedded as given, with
no uppercasing. -/
def BuyLimitPath (market quantity rate : String) : String :=
  "market/buylimit?market=" ++ market ++ "&quantity=" ++ quantity ++
    "&rate=" ++ rate

/-- BuyMarket request path (line 164). -/
def BuyMarketPath (market quantity : String) : String :=
  "market/buymarket?market=" ++ market ++ "&quantity=" ++ quantity

/-- SellLimit request path (line 183). -/
def SellLimitPath (market quantity rate : String) : String :=
  "market/selllimit?market=" ++ market ++ "&quantity=" ++ quantity ++
    "&rate=" ++ rate

/-- SellMarket request path (line 202): the source targets market/selllimit,
not a market-sell endpoint. -/
def SellMarketPath (market quantity : String) : String :=
  "market/selllimit?market=" ++ market ++ "&quantity=" ++ quantity

/-- GetOpenOrders request path (lines 237-240). -/
def GetOpenOrdersPath (market : String) : String :=
  let ressource := "market/getopenorders"
  if market ≠ "all" then ressource ++ "?market=" ++ toUpperS market
  else ressource

/-- GetBalance request path (line 278). -/
def GetBalancePath (currency : String) : String :=
  "account/getbalance?currency=" ++ toUpperS currency

/-- GetDepositAddress request path (line 296). -/
def GetDepositAddressPath (currency : String) : String :=
  "account/getdepositaddress?currency=" ++ toUpperS currency

/-- Withdraw request path (line 316). -/
def WithdrawPath (address currency quantity : String) : String :=
  "account/withdraw?currency=" ++ toUpperS currency ++ "&quantity=" ++
    quantity ++ "&address=" ++ address

/-- GetOrderHistory request path (lines 337-346): no clamping of count; the
market filter is embedded as given (no uppercasing) and omitted when the
selector is the reserved token all. -/
def GetOrderHistoryPath (market : String) (count : Int) : String :=
  let ressource := "account/getorderhistory"
  let ressource := if count ≠ 0 || market ≠ "all" then ressource ++ "?"
                   else ressource
  let ressource := if count ≠ 0 then
                     ressource ++ "count=" ++ toString count ++ "&"
                   else ressource
  if market ≠ "all" then ressource ++ "market=" ++ market else ressource

/-- GetWithdrawalHistory request path (lines 366-375). -/
def GetWithdrawalHistoryPath (currency : String) (count : Int) : String :=
  let ressource := "account/getwithdrawalhistory"
  let ressource := if count ≠ 0 || currency ≠ "all" then ressource ++ "?"
                   else ressource
  let ressource := if count ≠ 0 then
                     ressource ++ "count=" ++ toString count ++ "&"
                   else ressource
  if currency ≠ "all" then ressource ++ "currency=" ++ currency
  else ressource

/-- GetDepositHistory request path (lines 395-404). -/
def GetDepositHistoryPath (currency : String) (count : Int) : String :=
  let ressource := "account/getdeposithistory"
  let ressource := if count ≠ 0 || currency ≠ "all" then ressource ++ "?"
                   else ressource
  let ressource := if count ≠ 0 then
                     ressource ++ "count=" ++ toString count ++ "&"
                   else ressource
  if currency ≠ "all" then ressource ++ "currency=" ++ currency
  else ressource

/-- Characters after the first occurrence of the given separator. -/
def afterChar (sep : Char) : List Char → List Char
  | [] => []
  | c :: rest => if c = sep then rest else afterChar sep rest

/-- Split a character list on a separator character. -/
def splitOnChar (sep : Char) : List Char → List (List Char)
  | [] => [[]]
  | c :: rest =>
    let r := splitOnChar sep rest
    if c = sep then [] :: r
    else match r with
      | [] => [[c]]
      | g :: gs => (c :: g) :: gs

/-- One key=value segment of a query string, when well-formed. -/
def paramOf (kv : List Char) : Option (String × String) :=
  let k := kv.takeWhile fun c => c ≠ '='
  match kv.dropWhile fun c => c ≠ '=' with
  | _ :: v => if k.isEmpty then none else some (String.mk k, String.mk v)
  | _ => none

/-- Key-value pairs of a built URL's query string (the part after the first
question mark, split on ampersands). -/
def queryParams (url : String) : List (String × String) :=
  (splitOnChar '&' (afterChar '?' url.data)).filterMap paramOf

/-- Whether a built URL carries a query parameter with the given key. -/
def hasParam (url key : String) : Bool :=
  (queryParams url).any fun kv => kv.1 = key

/-! Typed payloads and their decoding from the envelope's Result field.

The source decodes Result with encoding/json's Unmarshal, whose documented
behaviour on a type mismatch is to record the first such error, skip the
offending value, and complete the rest of the decoding as best it can; the
target keeps its zero value wherever decoding failed. A JSON null leaves
the target unchanged and produces no error. The decoders below follow
those semantics: they return the (possibly partially filled) value together
with the first error, if any. -/

/-- Modelled from the spec: an order-book entry (spec section 3, OrderEntry);
the Go type is declared outside the provided source file. Its numeric fields
(float64 in Go) are modelled as integers, no arithmetic being performed. -/
structure OrderEntry where
  Quantity : Int
  Rate : Int
deriving Repr, DecidableEq

/-- Go zero value of OrderEntry. -/
def OrderEntry.zero : OrderEntry := { Quantity := 0, Rate := 0 }

/-- Modelled from the spec: OrderBook with ordered buy and sell sequences
(spec section 3); the Go type is declared outside the provided source file. -/
structure OrderBook where
  Buy : List OrderEntry
  Sell : List OrderEntry
deriving Repr, DecidableEq

/-- Go zero value of OrderBook (nil slices). -/
def OrderBook.zero : OrderBook := { Buy := [], Sell := [] }

/-- Modelled from the spec: the single-field UUID wrapper decoded from
`{uuid: s}` (spec sections 3 and 8); the Go type Uuid carries the identifier
in its Id field. -/
structure Uuid where
  Id : String
deriving Repr, DecidableEq

/-- Go zero value of Uuid. -/
def Uuid.zero : Uuid := { Id := "" }

/-- Modelled from the spec: an open/historic order record (spec section 3,
a flat record); the spec does not enumerate its fields, so only the order
identifier is carried. -/
structure Order where
  OrderUuid : String
deriving Repr, DecidableEq

/-- Go zero value of Order. -/
def Order.zero : Order := { OrderUuid := "" }

/-- Modelled from the spec: a Market record (spec section 3, a flat record);
the spec does not enumerate its fields, so a market name and an active flag
are carried. -/
structure Market where
  MarketName : String
  IsActive : Bool
deriving Repr, DecidableEq

/-- Go zero value of Market. -/
def Market.zero : Market := { MarketName := "", IsActive := false }

/-- First-error accumulation: encoding/json keeps the earliest saved error. -/
def mergeErr (e1 e2 : Option String) : Option String :=
  match e1 with
  | some m => some m
  | none => e2

/-- Unmarshal a JSON value into a Go string. -/
def decodeString : Json → String × Option String
  | Json.str s => (s, none)
  | Json.null => ("", none)
  | _ => ("", some "cannot unmarshal into value of type string")

/-- Unmarshal a JSON value into a Go number. -/
def decodeInt : Json → Int × Option String
  | Json.num n => (n, none)
  | Json.null => (0, none)
  | _ => (0, some "cannot unmarshal into numeric value")

/-- Unmarshal the fields of a JSON object into an OrderEntry, continuing
past mismatched fields and keeping the first error. -/
def decodeOrderEntryFields :
    List (String × Json) → OrderEntry → OrderEntry × Option String
  | [], acc => (acc, none)
  | (k, v) :: rest, acc =>
    if k = "quantity" then
      let r := decodeOrderEntryFields rest { acc with Quantity := (decodeInt v).1 }
      (r.1, mergeErr (decodeInt v).2 r.2)
    else if k = "rate" then
      let r := decodeOrderEntryFields rest { acc with Rate := (decodeInt v).1 }
      (r.1, mergeErr (decodeInt v).2 r.2)
    else decodeOrderEntryFields rest acc

/-- Unmarshal a JSON value into an OrderEntry. -/
def decodeOrderEntry : Json → OrderEntry × Option String
  | Json.obj fields => decodeOrderEntryFields fields OrderEntry.zero
  | Json.null => (OrderEntry.zero, none)
  | _ => (OrderEntry.zero, some "cannot unmarshal into value of type OrderEntry")

/-- Unmarshal the elements of a JSON array into OrderEntry values, one per
element, keeping the first error. -/
def decodeEntryElems : List Json → List OrderEntry × Option String
  | [] => ([], none)
  | x :: rest =>
    ((decodeOrderEntry x).1 :: (decodeEntryElems rest).1,
     mergeErr (decodeOrderEntry x).2 (decodeEntryElems rest).2)

/-- Unmarshal a JSON value into a slice of OrderEntry. -/
def decodeEntryList : Json → List OrderEntry × Option String
  | Json.arr xs => decodeEntryElems xs
  | Json.null => ([], none)
  | _ => ([], some "cannot unmarshal into value of type []OrderEntry")

/-- Unmarshal the fields of a JSON object into an OrderBook. -/
def decodeOrderBookFields :
    List (String × Json) → OrderBook → OrderBook × Option String
  | [], acc => (acc, none)
  | (k, v) :: rest, acc =>
    if k = "buy" then
      let r := decodeOrderBookFields rest { acc with Buy := (decodeEntryList v).1 }
      (r.1, mergeErr (decodeEntryList v).2 r.2)
    else if k = "sell" then
      let r := decodeOrderBookFields rest { acc with Sell := (decodeEntryList v).1 }
      (r.1, mergeErr (decodeEntryList v).2 r.2)
    else decodeOrderBookFields rest acc

/-- Unmarshal a JSON value into an OrderBook. -/
def decodeOrderBook : Json → OrderBook × Option String
  | Json.obj fields => decodeOrderBookFields fields OrderBook.zero
  | Json.null => (OrderBook.zero, none)
  | _ => (OrderBook.zero, some "cannot unmarshal into value of type OrderBook")

/-- Unmarshal the fields of a JSON object into a Uuid wrapper. -/
def decodeUuidFields : List (String × Json) → Uuid → Uuid × Option String
  | [], acc => (acc, none)
  | (k, v) :: rest, acc =>
    if k = "uuid" then
      let r := decodeUuidFields rest { acc with Id := (decodeString v).1 }
      (r.1, mergeErr (decodeString v).2 r.2)
    else decodeUuidFields rest acc

/-- Unmarshal a JSON value into a Uuid wrapper. -/
def decodeUuid : Json → Uuid × Option String
  | Json.obj fields => decodeUuidFields fields Uuid.zero
  | Json.null => (Uuid.zero, none)
  | _ => (Uuid.zero, some "cannot unmarshal into value of type Uuid")

/-- Unmarshal the fields of a JSON object into an Order. -/
def decodeOrderFields : List (String × Json) → Order → Order × Option String
  | [], acc => (acc, none)
  | (k, v) :: rest, acc =>
    if k = "OrderUuid" then
      let r := decodeOrderFields rest { acc with OrderUuid := (decodeString v).1 }
      (r.1, mergeErr (decodeString v).2 r.2)
    else decodeOrderFields rest acc

/-- Unmarshal a JSON value into an Order. -/
def decodeOrder : Json → Order × Option String
  | Json.obj fields => decodeOrderFields fields Order.zero
  | Json.null => (Order.zero, none)
  | _ => (Order.zero, some "cannot unmarshal into value of type Order")

/-- Unmarshal the elements of a JSON array into Order values. -/
def decodeOrderElems : List Json → List Order × Option String
  | [] => ([], none)
  | x :: rest =>
    ((decodeOrder x).1 :: (decodeOrderElems rest).1,
     mergeErr (decodeOrder x).2 (decodeOrderElems rest).2)

/-- Unmarshal a JSON value into a slice of Order. -/
def decodeOrderList : Json → List Order × Option String
  | Json.arr xs => decodeOrderElems xs
  | Json.null => ([], none)
  | _ => ([], some "cannot unmarshal into value of type []Order")

/-- Unmarshal a JSON value into a Go bool. -/
def decodeBool : Json → Bool × Option String
  | Json.bool b => (b, none)
  | Json.null => (false, none)
  | _ => (false, some "cannot unmarshal into value of type bool")

/-- Unmarshal the fields of a JSON object into a Market. -/
def decodeMarketFields : List (String × Json) → Market → Market × Option String
  | [], acc => (acc, none)
  | (k, v) :: rest, acc =>
    if k = "MarketName" then
      let r := decodeMarketFields rest { acc with MarketName := (decodeString v).1 }
      (r.1, mergeErr (decodeString v).2 r.2)
    else if k = "IsActive" then
      let r := decodeMarketFields rest { acc with IsActive := (decodeBool v).1 }
      (r.1, mergeErr (decodeBool v).2 r.2)
    else decodeMarketFields rest acc

/-- Unmarshal a JSON value into a Market. -/
def decodeMarket : Json → Market × Option String
  | Json.obj fields => decodeMarketFields fields Market.zero
  | Json.null => (Market.zero, none)
  | _ => (Market.zero, some "cannot unmarshal into value of type Market")

/-- Unmarshal the elements of a JSON array into Market values. -/
def decodeMarketElems : List Json → List Market × Option String
  | [] => ([], none)
  | x :: rest =>
    ((decodeMarket x).1 :: (decodeMarketElems rest).1,
     mergeErr (decodeMarket x).2 (decodeMarketElems rest).2)

/-- Unmarshal a JSON value into a slice of Market. -/
def decodeMarketList : Json → List Market × Option String
  | Json.arr xs => decodeMarketElems xs
  | Json.null => ([], none)
  | _ => ([], some "cannot unmarshal into value of type []Market")

/-! All-or-nothing decoders, for comparison with the lenient ones above. -/

/-- Modelled from the spec: all-or-nothing unmarshalling of a number
(spec section 4.2, decoding is all-or-nothing). -/
def decodeIntStrict : Json → Option Int
  | Json.num n => some n
  | Json.null => some 0
  | _ => none

/-- Modelled from the spec: all-or-nothing unmarshalling of OrderEntry
fields. -/
def decodeOrderEntryFieldsStrict :
    List (String × Json) → OrderEntry → Option OrderEntry
  | [], acc => some acc
  | (k, v) :: rest, acc =>
    if k = "quantity" then
      match decodeIntStrict v with
      | some n => decodeOrderEntryFieldsStrict rest { acc with Quantity := n }
      | none => none
    else if k = "rate" then
      match decodeIntStrict v with
      | some n => decodeOrderEntryFieldsStrict rest { acc with Rate := n }
      | none => none
    else decodeOrderEntryFieldsStrict rest acc

/-- Modelled from the spec: all-or-nothing unmarshalling of an OrderEntry. -/
def decodeOrderEntryStrict : Json → Option OrderEntry
  | Json.obj fields => decodeOrderEntryFieldsStrict fields OrderEntry.zero
  | Json.null => some OrderEntry.zero
  | _ => none

/-- Modelled from the spec: all-or-nothing unmarshalling of array
elements into OrderEntry values. -/
def decodeEntryElemsStrict : List Json → Option (List OrderEntry)
  | [] => some []
  | x :: rest =>
    match decodeOrderEntryStrict x with
    | some e =>
      match decodeEntryElemsStrict rest with
      | some es => some (e :: es)
      | none => none
    | none => none

/-- Modelled from the spec: all-or-nothing unmarshalling of a slice of
OrderEntry. -/
def decodeEntryListStrict : Json → Option (List OrderEntry)
  | Json.arr xs => decodeEntryElemsStrict xs
  | Json.null => some []
  | _ => none

/-- Modelled from the spec: all-or-nothing unmarshalling of OrderBook
fields. -/
def decodeOrderBookFieldsStrict :
    List (String × Json) → OrderBook → Option OrderBook
  | [], acc => some acc
  | (k, v) :: rest, acc =>
    if k = "buy" then
      match decodeEntryListStrict v with
      | some l => decodeOrderBookFieldsStrict rest { acc with Buy := l }
      | none => none
    else if k = "sell" then
      match decodeEntryListStrict v with
      | some l => decodeOrderBookFieldsStrict rest { acc with Sell := l }
      | none => none
    else decodeOrderBookFieldsStrict rest acc

/-- Modelled from the spec: all-or-nothing unmarshalling of an OrderBook
(spec section 4.2, the guarantee that decoding is all-or-nothing). -/
def decodeOrderBookStrict : Json → Option OrderBook
  | Json.obj fields => decodeOrderBookFieldsStrict fields OrderBook.zero
  | Json.null => some OrderBook.zero
  | _ => none

/-- Modelled from the spec: all-or-nothing unmarshalling of a string. -/
def decodeStringStrict : Json → Option String
  | Json.str s => some s
  | Json.null => some ""
  | _ => none

/-- Modelled from the spec: all-or-nothing unmarshalling of a bool. -/
def decodeBoolStrict : Json → Option Bool
  | Json.bool b => some b
  | Json.null => some false
  | _ => none

/-- Modelled from the spec: all-or-nothing unmarshalling of Uuid fields. -/
def decodeUuidFieldsStrict : List (String × Json) → Uuid → Option Uuid
  | [], acc => some acc
  | (k, v) :: rest, acc =>
    if k = "uuid" then
      match decodeStringStrict v with
      | some s => decodeUuidFieldsStrict rest { acc with Id := s }
      | none => none
    else decodeUuidFieldsStrict rest acc

/-- Modelled from the spec: all-or-nothing unmarshalling of the Uuid
wrapper. -/
def decodeUuidStrict : Json → Option Uuid
  | Json.obj fields => decodeUuidFieldsStrict fields Uuid.zero
  | Json.null => some Uuid.zero
  | _ => none

/-- Modelled from the spec: all-or-nothing unmarshalling of Order fields. -/
def decodeOrderFieldsStrict : List (String × Json) → Order → Option Order
  | [], acc => some acc
  | (k, v) :: rest, acc =>
    if k = "OrderUuid" then
      match decodeStringStrict v with
      | some s => decodeOrderFieldsStrict rest { acc with OrderUuid := s }
      | none => none
    else decodeOrderFieldsStrict rest acc

/-- Modelled from the spec: all-or-nothing unmarshalling of an Order. -/
def decodeOrderStrict : Json → Option Order
  | Json.obj fields => decodeOrderFieldsStrict fields Order.zero
  | Json.null => some Order.zero
  | _ => none

/-- Modelled from the spec: all-or-nothing unmarshalling of array elements
into Order values. -/
def decodeOrderElemsStrict : List Json → Option (List Order)
  | [] => some []
  | x :: rest =>
    match decodeOrderStrict x with
    | some e =>
      match decodeOrderElemsStrict rest with
      | some es => some (e :: es)
      | none => none
    | none => none

/-- Modelled from the spec: all-or-nothing unmarshalling of a slice of
Order. -/
def decodeOrderListStrict : Json → Option (List Order)
  | Json.arr xs => decodeOrderElemsStrict xs
  | Json.null => some []
  | _ => none

/-- Modelled from the spec: all-or-nothing unmarshalling of Market
fields. -/
def decodeMarketFieldsStrict : List (String × Json) → Market → Option Market
  | [], acc => some acc
  | (k, v) :: rest, acc =>
    if k = "MarketName" then
      match decodeStringStrict v with
      | some s => decodeMarketFieldsStrict rest { acc with MarketName := s }
      | none => none
    else if k = "IsActive" then
      match decodeBoolStrict v with
      | some b => decodeMarketFieldsStrict rest { acc with IsActive := b }
      | none => none
    else decodeMarketFieldsStrict rest acc

/-- Modelled from the spec: all-or-nothing unmarshalling of a Market. -/
def decodeMarketStrict : Json → Option Market
  | Json.obj fields => decodeMarketFieldsStrict fields Market.zero
  | Json.null => some Market.zero
  | _ => none

/-- Modelled from the spec: all-or-nothing unmarshalling of array elements
into Market values. -/
def decodeMarketElemsStrict : List Json → Option (List Market)
  | [] => some []
  | x :: rest =>
    match decodeMarketStrict x with
    | some e =>
      match decodeMarketElemsStrict rest with
      | some es => some (e :: es)
      | none => none
    | none => none

/-- Modelled from the spec: all-or-nothing unmarshalling of a slice of
Market. -/
def decodeMarketListStrict : Json → Option (List Market)
  | Json.arr xs => decodeMarketElemsStrict xs
  | Json.null => some []
  | _ => none

/-! Response handling, translated from the per-method bodies of
bittrex.go. Each function maps the parsed envelope to the Go return tuple
(value, error). -/

/-- GetMarkets response handling (lines 42-50): handleErr on the envelope,
then unmarshal Result into the slice of markets. -/
def GetMarketsResp (response : jsonResponse) : List Market × Option String :=
  match handleErr response with
  | some e => ([], some e)
  | none => decodeMarketList response.Result

/-- GetOrderBook response handling (lines 105-113): handleErr on the
envelope, then unmarshal Result into the OrderBook. -/
def GetOrderBookResp (response : jsonResponse) : OrderBook × Option String :=
  match handleErr response with
  | some e => (OrderBook.zero, some e)
  | none => decodeOrderBook response.Result

/-- GetOpenOrders response handling (lines 245-253): the source unmarshals
the envelope a second time where every other method calls handleErr, so
Success and Message are never consulted and Result is decoded
unconditionally. -/
def GetOpenOrdersResp (response : jsonResponse) : List Order × Option String :=
  decodeOrderList response.Result

/-- BuyLimit response handling (lines 149-159): handleErr, then unmarshal
Result into the Uuid wrapper and return its Id field. -/
def BuyLimitResp (response : jsonResponse) : String × Option String :=
  match handleErr response with
  | some e => ("", some e)
  | none => ((decodeUuid response.Result).1.Id, (decodeUuid response.Result).2)

/-- BuyMarket response handling (lines 168-178). -/
def BuyMarketResp (response : jsonResponse) : String × Option String :=
  match handleErr response with
  | some e => ("", some e)
  | none => ((decodeUuid response.Result).1.Id, (decodeUuid response.Result).2)

/-- SellLimit response handling (lines 187-197). -/
def SellLimitResp (response : jsonResponse) : String × Option String :=
  match handleErr response with
  | some e => ("", some e)
  | none => ((decodeUuid response.Result).1.Id, (decodeUuid response.Result).2)

/-- SellMarket response handling (lines 206-216). -/
def SellMarketResp (response : jsonResponse) : String × Option String :=
  match handleErr response with
  | some e => ("", some e)
  | none => ((decodeUuid response.Result).1.Id, (decodeUuid response.Result).2)

/-- Withdraw response handling (lines 320-330). -/
def WithdrawResp (response : jsonResponse) : String × Option String :=
  match handleErr response with
  | some e => ("", some e)
  | none => ((decodeUuid response.Result).1.Id, (decodeUuid response.Result).2)

/-! Helper lemmas. -/

theorem char_toNat_ofNat_valid {n : Nat} (h : n.isValidChar) :
    (Char.ofNat n).toNat = n := by
  rw [Char.ofNat, dif_pos h]
  simp [Char.ofNatAux, Char.toNat, UInt32.toNat, BitVec.toNat_ofNatLt]

theorem char_toUpper_idem (c : Char) : c.toUpper.toUpper = c.toUpper := by
  unfold Char.toUpper
  by_cases h : 97 ≤ c.toNat ∧ c.toNat ≤ 122
  · rw [if_pos h]
    have hv : (c.toNat - 32).isValidChar := by
      left; omega
    have ht : (Char.ofNat (c.toNat - 32)).toNat = c.toNat - 32 :=
      char_toNat_ofNat_valid hv
    rw [if_neg]
    rw [ht]
    omega
  · rw [if_neg h, if_neg h]

theorem toUpperS_idem (s : String) : toUpperS (toUpperS s) = toUpperS s := by
  obtain ⟨l⟩ := s
  show String.mk (List.map Char.toUpper (List.map Char.toUpper l)) =
    String.mk (List.map Char.toUpper l)
  congr 1
  induction l with
  | nil => rfl
  | cons c cs ih => simp [ih, char_toUpper_idem]

theorem mergeErr_eq_none {e1 e2 : Option String} :
    mergeErr e1 e2 = none ↔ e1 = none ∧ e2 = none := by
  cases e1 <;> simp [mergeErr]

theorem decodeInt_agree {j : Json} (h : (decodeInt j).2 = none) :
    decodeIntStrict j = some (decodeInt j).1 := by
  cases j <;> simp_all [decodeInt, decodeIntStrict]

theorem decodeOrderEntryFields_agree :
    ∀ (fs : List (String × Json)) (acc : OrderEntry),
      (decodeOrderEntryFields fs acc).2 = none →
      decodeOrderEntryFieldsStrict fs acc =
        some (decodeOrderEntryFields fs acc).1 := by
  intro fs
  induction fs with
  | nil => intro acc _; rfl
  | cons kv rest ih =>
    intro acc h
    obtain ⟨k, v⟩ := kv
    by_cases hq : k = "quantity"
    · subst hq
      simp only [decodeOrderEntryFields, decodeOrderEntryFieldsStrict,
        if_pos rfl, eq_self_iff_true, if_true] at h ⊢
      rw [mergeErr_eq_none] at h
      rw [decodeInt_agree h.1]
      exact ih _ h.2
    · by_cases hr : k = "rate"
      · subst hr
        simp only [decodeOrderEntryFields, decodeOrderEntryFieldsStrict,
          if_neg (by decide : ¬ ("rate" : String) = "quantity"), if_pos rfl,
          eq_self_iff_true, if_true] at h ⊢
        rw [mergeErr_eq_none] at h
        rw [decodeInt_agree h.1]
        exact ih _ h.2
      · simp only [decodeOrderEntryFields, decodeOrderEntryFieldsStrict,
          if_neg hq, if_neg hr] at h ⊢
        exact ih _ h

theorem decodeOrderEntry_agree {j : Json} (h : (decodeOrderEntry j).2 = none) :
    decodeOrderEntryStrict j = some (decodeOrderEntry j).1 := by
  cases j with
  | obj fields => exact decodeOrderEntryFields_agree fields OrderEntry.zero h
  | null => rfl
  | _ => simp_all [decodeOrderEntry]

theorem decodeEntryElems_agree :
    ∀ (xs : List Json), (decodeEntryElems xs).2 = none →
      decodeEntryElemsStrict xs = some (decodeEntryElems xs).1 := by
  intro xs
  induction xs with
  | nil => intro _; rfl
  | cons x rest ih =>
    intro h
    simp only [decodeEntryElems, decodeEntryElemsStrict] at h ⊢
    rw [mergeErr_eq_none] at h
    rw [decodeOrderEntry_agree h.1, ih h.2]

theorem decodeEntryList_agree {j : Json} (h : (decodeEntryList j).2 = none) :
    decodeEntryListStrict j = some (decodeEntryList j).1 := by
  cases j with
  | arr xs => exact decodeEntryElems_agree xs h
  | null => rfl
  | _ => simp_all [decodeEntryList]

theorem decodeOrderBookFields_agree :
    ∀ (fs : List (String × Json)) (acc : OrderBook),
      (decodeOrderBookFields fs acc).2 = none →
      decodeOrderBookFieldsStrict fs acc =
        some (decodeOrderBookFields fs acc).1 := by
  intro fs
  induction fs with
  | nil => intro acc _; rfl
  | cons kv rest ih =>
    intro acc h
    obtain ⟨k, v⟩ := kv
    by_cases hb : k = "buy"
    · subst hb
      simp only [decodeOrderBookFields, decodeOrderBookFieldsStrict,
        if_pos rfl, eq_self_iff_true, if_true] at h ⊢
      rw [mergeErr_eq_none] at h
      rw [decodeEntryList_agree h.1]
      exact ih _ h.2
    · by_cases hs : k = "sell"
      · subst hs
        simp only [decodeOrderBookFields, decodeOrderBookFieldsStrict,
          if_neg (by decide : ¬ ("sell" : String) = "buy"), if_pos rfl,
          eq_self_iff_true, if_true] at h ⊢
        rw [mergeErr_eq_none] at h
        rw [decodeEntryList_agree h.1]
        exact ih _ h.2
      · simp only [decodeOrderBookFields, decodeOrderBookFieldsStrict,
          if_neg hb, if_neg hs] at h ⊢
        exact ih _ h

theorem decodeOrderBook_agree {j : Json} (h : (decodeOrderBook j).2 = none) :
    decodeOrderBookStrict j = some (decodeOrderBook j).1 := by
  cases j with
  | obj fields => exact decodeOrderBookFields_agree fields OrderBook.zero h
  | null => rfl
  | _ => simp_all [decodeOrderBook]

theorem decodeString_agree {j : Json} (h : (decodeString j).2 = none) :
    decodeStringStrict j = some (decodeString j).1 := by
  cases j <;> simp_all [decodeString, decodeStringStrict]

theorem decodeBool_agree {j : Json} (h : (decodeBool j).2 = none) :
    decodeBoolStrict j = some (decodeBool j).1 := by
  cases j <;> simp_all [decodeBool, decodeBoolStrict]

theorem decodeUuidFields_agree :
    ∀ (fs : List (String × Json)) (acc : Uuid),
      (decodeUuidFields fs acc).2 = none →
      decodeUuidFieldsStrict fs acc = some (decodeUuidFields fs acc).1 := by
  intro fs
  induction fs with
  | nil => intro acc _; rfl
  | cons kv rest ih =>
    intro acc h
    obtain ⟨k, v⟩ := kv
    by_cases hk : k = "uuid"
    · subst hk
      simp only [decodeUuidFields, decodeUuidFieldsStrict, if_pos rfl,
        eq_self_iff_true, if_true] at h ⊢
      rw [mergeErr_eq_none] at h
      rw [decodeString_agree h.1]
      exact ih _ h.2
    · simp only [decodeUuidFields, decodeUuidFieldsStrict, if_neg hk] at h ⊢
      exact ih _ h

theorem decodeUuid_agree {j : Json} (h : (decodeUuid j).2 = none) :
    decodeUuidStrict j = some (decodeUuid j).1 := by
  cases j with
  | obj fields => exact decodeUuidFields_agree fields Uuid.zero h
  | null => rfl
  | _ => simp_all [decodeUuid]

theorem decodeOrderFields_agree :
    ∀ (fs : List (String × Json)) (acc : Order),
      (decodeOrderFields fs acc).2 = none →
      decodeOrderFieldsStrict fs acc = some (decodeOrderFields fs acc).1 := by
  intro fs
  induction fs with
  | nil => intro acc _; rfl
  | cons kv rest ih =>
    intro acc h
    obtain ⟨k, v⟩ := kv
    by_cases hk : k = "OrderUuid"
    · subst hk
      simp only [decodeOrderFields, decodeOrderFieldsStrict, if_pos rfl,
        eq_self_iff_true, if_true] at h ⊢
      rw [mergeErr_eq_none] at h
      rw [decodeString_agree h.1]
      exact ih _ h.2
    · simp only [decodeOrderFields, decodeOrderFieldsStrict, if_neg hk] at h ⊢
      exact ih _ h

theorem decodeOrder_agree {j : Json} (h : (decodeOrder j).2 = none) :
    decodeOrderStrict j = some (decodeOrder j).1 := by
  cases j with
  | obj fields => exact decodeOrderFields_agree fields Order.zero h
  | null => rfl
  | _ => simp_all [decodeOrder]

theorem decodeOrderElems_agree :
    ∀ (xs : List Json), (decodeOrderElems xs).2 = none →
      decodeOrderElemsStrict xs = some (decodeOrderElems xs).1 := by
  intro xs
  induction xs with
  | nil => intro _; rfl
  | cons x rest ih =>
    intro h
    simp only [decodeOrderElems, decodeOrderElemsStrict] at h ⊢
    rw [mergeErr_eq_none] at h
    rw [decodeOrder_agree h.1, ih h.2]

theorem decodeOrderList_agree {j : Json} (h : (decodeOrderList j).2 = none) :
    decodeOrderListStrict j = some (decodeOrderList j).1 := by
  cases j with
  | arr xs => exact decodeOrderElems_agree xs h
  | null => rfl
  | _ => simp_all [decodeOrderList]

theorem decodeMarketFields_agree :
    ∀ (fs : List (String × Json)) (acc : Market),
      (decodeMarketFields fs acc).2 = none →
      decodeMarketFieldsStrict fs acc = some (decodeMarketFields fs acc).1 := by
  intro fs
  induction fs with
  | nil => intro acc _; rfl
  | cons kv rest ih =>
    intro acc h
    obtain ⟨k, v⟩ := kv
    by_cases hn : k = "MarketName"
    · subst hn
      simp only [decodeMarketFields, decodeMarketFieldsStrict, if_pos rfl,
        eq_self_iff_true, if_true] at h ⊢
      rw [mergeErr_eq_none] at h
      rw [decodeString_agree h.1]
      exact ih _ h.2
    · by_cases ha : k = "IsActive"
      · subst ha
        simp only [decodeMarketFields, decodeMarketFieldsStrict,
          if_neg (by decide : ¬ ("IsActive" : String) = "MarketName"),
          if_pos rfl, eq_self_iff_true, if_true] at h ⊢
        rw [mergeErr_eq_none] at h
        rw [decodeBool_agree h.1]
        exact ih _ h.2
      · simp only [decodeMarketFields, decodeMarketFieldsStrict,
          if_neg hn, if_neg ha] at h ⊢
        exact ih _ h

theorem decodeMarket_agree {j : Json} (h : (decodeMarket j).2 = none) :
    decodeMarketStrict j = some (decodeMarket j).1 := by
  cases j with
  | obj fields => exact decodeMarketFields_agree fields Market.zero h
  | null => rfl
  | _ => simp_all [decodeMarket]

theorem decodeMarketElems_agree :
    ∀ (xs : List Json), (decodeMarketElems xs).2 = none →
      decodeMarketElemsStrict xs = some (decodeMarketElems xs).1 := by
  intro xs
  induction xs with
  | nil => intro _; rfl
  | cons x rest ih =>
    intro h
    simp only [decodeMarketElems, decodeMarketElemsStrict] at h ⊢
    rw [mergeErr_eq_none] at h
    rw [decodeMarket_agree h.1, ih h.2]

theorem decodeMarketList_agree {j : Json} (h : (decodeMarketList j).2 = none) :
    decodeMarketListStrict j = some (decodeMarketList j).1 := by
  cases j with
  | arr xs => exact decodeMarketElems_agree xs h
  | null => rfl
  | _ => simp_all [decodeMarketList]

/-! Claim theorems. -/

/-- C1: contrary to the claim, GetOpenOrders does not signal an error on a
Success == false envelope (the source unmarshals the envelope twice instead
of calling handleErr): the exchange message is dropped, and the Result field
IS decoded into the typed payload. -/
theorem c1_getOpenOrders_skips_error_check :
    GetOpenOrdersResp ⟨false, "APIKEY_INVALID", Json.null⟩ = ([], none) ∧
    GetOpenOrdersResp
        ⟨false, "APIKEY_INVALID",
         Json.arr [Json.obj [("OrderUuid", Json.str "a1-b2")]]⟩ =
      ([{ OrderUuid := "a1-b2" }], none) := by
  exact ⟨rfl, rfl⟩

/-- C5: the depth sent by GetOrderBook always lies in [1,100], and a depth
already in [1,100] is sent unchanged. -/
theorem c5_orderBook_depth_clamped (depth : Int) :
    (1 ≤ GetOrderBookDepth depth ∧ GetOrderBookDepth depth ≤ 100) ∧
    (1 ≤ depth → depth ≤ 100 → GetOrderBookDepth depth = depth) := by
  simp only [GetOrderBookDepth]
  constructor
  · split_ifs <;> omega
  · intro h1 h2
    split_ifs <;> omega

/-- Witness for C5 at depths 50 and 150. -/
theorem c5_orderBook_depth_clamped_witness :
    GetOrderBookDepth 50 = 50 ∧
    (1 ≤ GetOrderBookDepth 150 ∧ GetOrderBookDepth 150 ≤ 100) :=
  ⟨(c5_orderBook_depth_clamped 50).2 (by decide) (by decide),
   (c5_orderBook_depth_clamped 150).1⟩

/-- C6: GetOrderBook("btc-ltc", "both", 150) clamps the depth to 100,
uppercases the market, issues an unauthenticated GET to
public/getorderbook?market=BTC-LTC&type=both&depth=100, and on a successful
envelope returns the buy and sell sequences decoded in their given order. -/
theorem c6_getOrderBook_end_to_end :
    GetOrderBookRequest "btc-ltc" "both" 150 =
      { method := "GET",
        ressource := "public/getorderbook?market=BTC-LTC&type=both&depth=100",
        payload := "", authenticate := false } ∧
    GetOrderBookResp
        ⟨true, "",
         Json.obj
          [("buy", Json.arr
              [Json.obj [("quantity", Json.num 3), ("rate", Json.num 500)],
               Json.obj [("quantity", Json.num 1), ("rate", Json.num 499)]]),
           ("sell", Json.arr
              [Json.obj [("quantity", Json.num 7), ("rate", Json.num 501)],
               Json.obj [("quantity", Json.num 2), ("rate", Json.num 502)]])]⟩ =
      ({ Buy := [{ Quantity := 3, Rate := 500 }, { Quantity := 1, Rate := 499 }],
         Sell := [{ Quantity := 7, Rate := 501 }, { Quantity := 2, Rate := 502 }] },
       none) := by
  exact ⟨rfl, rfl⟩

/-- C7: on a successful envelope whose result is the single-field wrapper
`{uuid: s}`, each order-placement operation and Withdraw returns exactly the
identifier string s, not the wrapper record. -/
theorem c7_uuid_unwrapped (s msg : String) :
    BuyLimitResp ⟨true, msg, Json.obj [("uuid", Json.str s)]⟩ = (s, none) ∧
    BuyMarketResp ⟨true, msg, Json.obj [("uuid", Json.str s)]⟩ = (s, none) ∧
    SellLimitResp ⟨true, msg, Json.obj [("uuid", Json.str s)]⟩ = (s, none) ∧
    SellMarketResp ⟨true, msg, Json.obj [("uuid", Json.str s)]⟩ = (s, none) ∧
    WithdrawResp ⟨true, msg, Json.obj [("uuid", Json.str s)]⟩ = (s, none) := by
  exact ⟨rfl, rfl, rfl, rfl, rfl⟩

/-- C9: SellMarket builds its request on the sell-limit endpoint path
market/selllimit, not on a distinct market-sell endpoint (compare BuyMarket,
which does use market/buymarket). -/
theorem c9_sellMarket_uses_selllimit (market quantity : String) :
    SellMarketPath market quantity =
      "market/selllimit?" ++ ("market=" ++ (market ++ ("&quantity=" ++ quantity))) ∧
    BuyMarketPath market quantity =
      "market/buymarket?" ++ ("market=" ++ (market ++ ("&quantity=" ++ quantity))) ∧
    SellMarketPath "BTC-LTC" "1.00000000" ≠
      "market/sellmarket?market=BTC-LTC&quantity=1.00000000" := by
  refine ⟨?_, ?_, by decide⟩
  · simp only [SellMarketPath, String.append_assoc]
    rfl
  · simp only [BuyMarketPath, String.append_assoc]
    rfl

/-- C10: GetOrderBook sends type both for any category outside
buy/sell/both, and sends the given category unchanged otherwise. -/
theorem c10_orderBook_cat_normalised (cat : String) :
    ((cat ≠ "buy" ∧ cat ≠ "sell" ∧ cat ≠ "both") → GetOrderBookCat cat = "both") ∧
    ((cat = "buy" ∨ cat = "sell" ∨ cat = "both") → GetOrderBookCat cat = cat) := by
  unfold GetOrderBookCat
  constructor
  · rintro ⟨h1, h2, h3⟩
    simp [h1, h2, h3]
  · rintro (h | h | h) <;> subst h <;> simp

/-- Witness for C10 at categories invalid and sell. -/
theorem c10_orderBook_cat_normalised_witness :
    GetOrderBookCat "invalid" = "both" ∧ GetOrderBookCat "sell" = "sell" :=
  ⟨(c10_orderBook_cat_normalised "invalid").1 (by decide),
   (c10_orderBook_cat_normalised "sell").2 (by decide)⟩

/-- C2 counterexample: GetOrderHistory with count 150 sends count=150,
outside [1,100] — the account history endpoints do not clamp. -/
theorem c2_counterexample :
    GetOrderHistoryPath "all" 150 = "account/getorderhistory?count=150&" ∧
    (queryParams (GetOrderHistoryPath "all" 150)).lookup "count" =
      some "150" ∧
    ¬ ((150 : Int) ≤ 100) := by
  refine ⟨by decide, by decide, by decide⟩

/-- C2 amended: GetMarketHistory clamps its count into [1,100] and sends
in-range counts unchanged; the order, withdrawal and deposit history
endpoints do not clamp: a nonzero count is sent verbatim and a zero count
omits the parameter entirely. -/
theorem c2_amended (market currency : String) (c : Int) (hc : c ≠ 0) :
    (1 ≤ GetMarketHistoryCount c ∧ GetMarketHistoryCount c ≤ 100) ∧
    (1 ≤ c → c ≤ 100 → GetMarketHistoryCount c = c) ∧
    (∃ rest, GetOrderHistoryPath market c =
      "account/getorderhistory?count=" ++ (toString c ++ ("&" ++ rest))) ∧
    (∃ rest, GetWithdrawalHistoryPath currency c =
      "account/getwithdrawalhistory?count=" ++ (toString c ++ ("&" ++ rest))) ∧
    (∃ rest, GetDepositHistoryPath currency c =
      "account/getdeposithistory?count=" ++ (toString c ++ ("&" ++ rest))) ∧
    GetOrderHistoryPath market 0 =
      "account/getorderhistory" ++
        (if market ≠ "all" then "?market=" ++ market else "") ∧
    GetWithdrawalHistoryPath currency 0 =
      "account/getwithdrawalhistory" ++
        (if currency ≠ "all" then "?currency=" ++ currency else "") ∧
    GetDepositHistoryPath currency 0 =
      "account/getdeposithistory" ++
        (if currency ≠ "all" then "?currency=" ++ currency else "") := by
  refine ⟨?_, ?_, ?_, ?_, ?_, ?_, ?_, ?_⟩
  · simp only [GetMarketHistoryCount]
    split_ifs <;> omega
  · intro ha hb
    simp only [GetMarketHistoryCount]
    split_ifs <;> omega
  · by_cases hm : market = "all"
    · subst hm
      refine ⟨"", ?_⟩
      simp [GetOrderHistoryPath, hc, String.append_assoc]
    · refine ⟨if market ≠ "all" then "market=" ++ market else "", ?_⟩
      simp [GetOrderHistoryPath, hc, hm, String.append_assoc]
      rfl
  · by_cases hm : currency = "all"
    · subst hm
      refine ⟨"", ?_⟩
      simp [GetWithdrawalHistoryPath, hc, String.append_assoc]
    · refine ⟨if currency ≠ "all" then "currency=" ++ currency else "", ?_⟩
      simp [GetWithdrawalHistoryPath, hc, hm, String.append_assoc]
      rfl
  · by_cases hm : currency = "all"
    · subst hm
      refine ⟨"", ?_⟩
      simp [GetDepositHistoryPath, hc, String.append_assoc]
    · refine ⟨if currency ≠ "all" then "currency=" ++ currency else "", ?_⟩
      simp [GetDepositHistoryPath, hc, hm, String.append_assoc]
      rfl
  · by_cases hm : market = "all"
    · subst hm
      decide
    · simp [GetOrderHistoryPath, hm]
      rfl
  · by_cases hm : currency = "all"
    · subst hm
      decide
    · simp [GetWithdrawalHistoryPath, hm]
      rfl
  · by_cases hm : currency = "all"
    · subst hm
      decide
    · simp [GetDepositHistoryPath, hm]
      rfl

/-- Witness for C2 amended at count 50 and market btc-ltc. -/
theorem c2_amended_witness :
    GetMarketHistoryCount 50 = 50 ∧
    (∃ rest, GetOrderHistoryPath "btc-ltc" 50 =
      "account/getorderhistory?count=" ++ (toString (50 : Int) ++ ("&" ++ rest))) :=
  ⟨(c2_amended "btc-ltc" "btc" 50 (by decide)).2.1 (by decide) (by decide),
   (c2_amended "btc-ltc" "btc" 50 (by decide)).2.2.1⟩

/-- C3 counterexample: BuyLimit embeds the market as given, so the lowercase
input btc-ltc produces a different request than its uppercase form, with the
lowercase identifier in the URL. -/
theorem c3_counterexample :
    BuyLimitPath "btc-ltc" "1.50000000" "0.01000000" ≠
      BuyLimitPath "BTC-LTC" "1.50000000" "0.01000000" ∧
    (queryParams (BuyLimitPath "btc-ltc" "1.50000000" "0.01000000")).lookup
      "market" = some "btc-ltc" := by
  refine ⟨by decide, by decide⟩

/-- C3 amended: GetTicker, GetOrderBook, GetMarketHistory, GetOpenOrders,
GetBalance, GetDepositAddress and Withdraw uppercase the market or currency
identifier, so a lowercase input produces the same request as its uppercase
form; the order-placement operations (BuyLimit, BuyMarket, SellLimit,
SellMarket) and the history filters (GetOrderHistory, GetWithdrawalHistory,
GetDepositHistory) embed the identifier unchanged. -/
theorem c3_amended (market currency cat address quantity rate : String)
    (depth count : Int) (h1 : market ≠ "all") (h2 : toUpperS market ≠ "all")
    (h3 : currency ≠ "all") :
    GetTickerPath market = GetTickerPath (toUpperS market) ∧
    GetOrderBookPath market cat depth =
      GetOrderBookPath (toUpperS market) cat depth ∧
    GetMarketHistoryPath market count =
      GetMarketHistoryPath (toUpperS market) count ∧
    GetOpenOrdersPath market = GetOpenOrdersPath (toUpperS market) ∧
    GetBalancePath currency = GetBalancePath (toUpperS currency) ∧
    GetDepositAddressPath currency =
      GetDepositAddressPath (toUpperS currency) ∧
    WithdrawPath address currency quantity =
      WithdrawPath address (toUpperS currency) quantity ∧
    BuyLimitPath market quantity rate =
      "market/buylimit?market=" ++
        (market ++ ("&quantity=" ++ (quantity ++ ("&rate=" ++ rate)))) ∧
    BuyMarketPath market quantity =
      "market/buymarket?market=" ++ (market ++ ("&quantity=" ++ quantity)) ∧
    SellLimitPath market quantity rate =
      "market/selllimit?market=" ++
        (market ++ ("&quantity=" ++ (quantity ++ ("&rate=" ++ rate)))) ∧
    SellMarketPath market quantity =
      "market/selllimit?market=" ++ (market ++ ("&quantity=" ++ quantity)) ∧
    (∃ pre, GetOrderHistoryPath market count = pre ++ ("market=" ++ market)) ∧
    (∃ pre, GetWithdrawalHistoryPath currency count =
      pre ++ ("currency=" ++ currency)) ∧
    (∃ pre, GetDepositHistoryPath currency count =
      pre ++ ("currency=" ++ currency)) := by
  refine ⟨?_, ?_, ?_, ?_, ?_, ?_, ?_, ?_, ?_, ?_, ?_, ?_, ?_, ?_⟩
  · simp [GetTickerPath, toUpperS_idem]
  · simp [GetOrderBookPath, toUpperS_idem]
  · simp [GetMarketHistoryPath, toUpperS_idem]
  · simp [GetOpenOrdersPath, h1, h2, toUpperS_idem]
  · simp [GetBalancePath, toUpperS_idem]
  · simp [GetDepositAddressPath, toUpperS_idem]
  · simp [WithdrawPath, toUpperS_idem]
  · simp only [BuyLimitPath, String.append_assoc]
  · simp only [BuyMarketPath, String.append_assoc]
  · simp only [SellLimitPath, String.append_assoc]
  · simp only [SellMarketPath, String.append_assoc]
  · simp [GetOrderHistoryPath, h1, String.append_assoc]
    exact ⟨_, rfl⟩
  · simp [GetWithdrawalHistoryPath, h3, String.append_assoc]
    exact ⟨_, rfl⟩
  · simp [GetDepositHistoryPath, h3, String.append_assoc]
    exact ⟨_, rfl⟩

/-- Witness for C3 amended at market btc-ltc. -/
theorem c3_amended_witness :
    GetTickerPath "btc-ltc" = GetTickerPath (toUpperS "btc-ltc") :=
  (c3_amended "btc-ltc" "ltc" "both" "addr" "1.50000000" "0.01000000" 5 3
    (by decide) (by decide) (by decide)).1

/-- C4 counterexample: a non-all selector is embedded in the history URL as
given, not uppercased: GetOrderHistory with market btc-ltc carries the
lowercase value. -/
theorem c4_counterexample :
    GetOrderHistoryPath "btc-ltc" 0 =
      "account/getorderhistory?market=btc-ltc" ∧
    (queryParams (GetOrderHistoryPath "btc-ltc" 0)).lookup "market" =
      some "btc-ltc" ∧
    toUpperS "btc-ltc" ≠ "btc-ltc" := by
  refine ⟨by decide, by decide, by decide⟩

/-- C4 amended: with selector all, the order, withdrawal and deposit history
URLs carry no market or currency query parameter; with any other selector
the URL embeds the given value unchanged (not uppercased). -/
theorem c4_amended (market currency : String) (count : Int)
    (hm : market ≠ "all") (hc : currency ≠ "all") :
    GetOrderHistoryPath "all" count =
      "account/getorderhistory" ++
        (if count ≠ 0 then "?count=" ++ toString count ++ "&" else "") ∧
    hasParam (GetOrderHistoryPath "all" 0) "market" = false ∧
    (∃ pre, GetOrderHistoryPath market count = pre ++ ("market=" ++ market)) ∧
    GetWithdrawalHistoryPath "all" count =
      "account/getwithdrawalhistory" ++
        (if count ≠ 0 then "?count=" ++ toString count ++ "&" else "") ∧
    hasParam (GetWithdrawalHistoryPath "all" 0) "currency" = false ∧
    (∃ pre, GetWithdrawalHistoryPath currency count =
      pre ++ ("currency=" ++ currency)) ∧
    GetDepositHistoryPath "all" count =
      "account/getdeposithistory" ++
        (if count ≠ 0 then "?count=" ++ toString count ++ "&" else "") ∧
    hasParam (GetDepositHistoryPath "all" 0) "currency" = false ∧
    (∃ pre, GetDepositHistoryPath currency count =
      pre ++ ("currency=" ++ currency)) := by
  refine ⟨?_, by decide, ?_, ?_, by decide, ?_, ?_, by decide, ?_⟩
  · by_cases hc0 : count = 0
    · subst hc0
      decide
    · simp [GetOrderHistoryPath, hc0, String.append_assoc]
      rfl
  · simp [GetOrderHistoryPath, hm, String.append_assoc]
    exact ⟨_, rfl⟩
  · by_cases hc0 : count = 0
    · subst hc0
      decide
    · simp [GetWithdrawalHistoryPath, hc0, String.append_assoc]
      rfl
  · simp [GetWithdrawalHistoryPath, hc, String.append_assoc]
    exact ⟨_, rfl⟩
  · by_cases hc0 : count = 0
    · subst hc0
      decide
    · simp [GetDepositHistoryPath, hc0, String.append_assoc]
      rfl
  · simp [GetDepositHistoryPath, hc, String.append_assoc]
    exact ⟨_, rfl⟩

/-- Witness for C4 amended at market btc-ltc and currency btc. -/
theorem c4_amended_witness :
    hasParam (GetOrderHistoryPath "all" 0) "market" = false ∧
    (∃ pre, GetOrderHistoryPath "btc-ltc" 7 = pre ++ ("market=" ++ "btc-ltc")) :=
  ⟨(c4_amended "btc-ltc" "btc" 7 (by decide) (by decide)).2.1,
   (c4_amended "btc-ltc" "btc" 7 (by decide) (by decide)).2.2.1⟩

/-- C8 counterexample: on a result whose sell field has the wrong type,
GetOrderBook returns an error together with a partially decoded payload (the
buy side populated), not the undecoded zero value. -/
theorem c8_counterexample :
    (GetOrderBookResp ⟨true, "",
        Json.obj
          [("buy", Json.arr
              [Json.obj [("quantity", Json.num 1), ("rate", Json.num 2)]]),
           ("sell", Json.str "oops")]⟩).2.isSome = true ∧
    (GetOrderBookResp ⟨true, "",
        Json.obj
          [("buy", Json.arr
              [Json.obj [("quantity", Json.num 1), ("rate", Json.num 2)]]),
           ("sell", Json.str "oops")]⟩).1 ≠ OrderBook.zero := by
  refine ⟨by decide, by decide⟩

/-- C8 amended: for every modelled operation, a decode failure is always
signalled through the returned error, and whenever no error is returned the
payload equals the all-or-nothing decode of the result (for the UUID
operations, the returned identifier is the field of the all-or-nothing
decoded wrapper); but on a type mismatch the payload returned alongside the
error may be partially decoded rather than the zero value, because
Unmarshal completes as much of the decoding as it can. -/
theorem c8_amended (response : jsonResponse) (h : response.Success = true) :
    ((GetOrderBookResp response).2 = none →
      decodeOrderBookStrict response.Result =
        some (GetOrderBookResp response).1) ∧
    ((GetMarketsResp response).2 = none →
      decodeMarketListStrict response.Result =
        some (GetMarketsResp response).1) ∧
    ((BuyLimitResp response).2 = none →
      decodeUuidStrict response.Result =
        some { Id := (BuyLimitResp response).1 }) ∧
    ((BuyMarketResp response).2 = none →
      decodeUuidStrict response.Result =
        some { Id := (BuyMarketResp response).1 }) ∧
    ((SellLimitResp response).2 = none →
      decodeUuidStrict response.Result =
        some { Id := (SellLimitResp response).1 }) ∧
    ((SellMarketResp response).2 = none →
      decodeUuidStrict response.Result =
        some { Id := (SellMarketResp response).1 }) ∧
    ((WithdrawResp response).2 = none →
      decodeUuidStrict response.Result =
        some { Id := (WithdrawResp response).1 }) ∧
    ((GetOpenOrdersResp response).2 = none →
      decodeOrderListStrict response.Result =
        some (GetOpenOrdersResp response).1) := by
  have hh : handleErr response = none := by simp [handleErr, h]
  refine ⟨?_, ?_, ?_, ?_, ?_, ?_, ?_, ?_⟩
  · intro h2
    simp only [GetOrderBookResp, hh] at h2 ⊢
    exact decodeOrderBook_agree h2
  · intro h2
    simp only [GetMarketsResp, hh] at h2 ⊢
    exact decodeMarketList_agree h2
  · intro h2
    simp only [BuyLimitResp, hh] at h2 ⊢
    exact decodeUuid_agree h2
  · intro h2
    simp only [BuyMarketResp, hh] at h2 ⊢
    exact decodeUuid_agree h2
  · intro h2
    simp only [SellLimitResp, hh] at h2 ⊢
    exact decodeUuid_agree h2
  · intro h2
    simp only [SellMarketResp, hh] at h2 ⊢
    exact decodeUuid_agree h2
  · intro h2
    simp only [WithdrawResp, hh] at h2 ⊢
    exact decodeUuid_agree h2
  · intro h2
    simp only [GetOpenOrdersResp] at h2 ⊢
    exact decodeOrderList_agree h2

/-- Witness for C8 amended at successfully decoded envelopes for
GetOrderBook and BuyLimit. -/
theorem c8_amended_witness :
    decodeOrderBookStrict
        (Json.obj [("buy", Json.arr []), ("sell", Json.null)]) =
      some (GetOrderBookResp
        ⟨true, "", Json.obj [("buy", Json.arr []), ("sell", Json.null)]⟩).1 ∧
    decodeUuidStrict (Json.obj [("uuid", Json.str "ab-12")]) =
      some { Id := (BuyLimitResp
        ⟨true, "", Json.obj [("uuid", Json.str "ab-12")]⟩).1 } :=
  ⟨(c8_amended ⟨true, "", Json.obj [("buy", Json.arr []), ("sell", Json.null)]⟩
      rfl).1 rfl,
   (c8_amended ⟨true, "", Json.obj [("uuid", Json.str "ab-12")]⟩
      rfl).2.2.1 rfl⟩

end Bittrex
